import Mathlib

/-!
Megaphone: call queue, inbound SIP proxy handlers and SAP header parser

A shallow embedding of

* `media/queue.go` : `Session`, `Queue`, `Queue.GetSession`, `Queue.Enqueue`, `NewQueue`;
* `input/sip/proxy.go` : the handlers registered by `Proxy.ListenUDP`;
* `input/sap/sap.go` : `Header.Parse`.

Go methods with a pointer receiver become functions that return the updated
receiver next to the Go results. A Go `error` result is an `Option`: `none`
is the `nil` error.
-/

namespace Megaphone

namespace media

/-- Errors declared by package `media`. `ErrSessionNotFound` is the only one. -/
inductive Error where
  | ErrSessionNotFound
  deriving DecidableEq, Repr

/-- The Go interface `Session`: any type with a method `GetID() string`.
A value of `σ` is a non-nil session; the nil interface value is `none`
where the code tests for it (the `current` slot). -/
class Session (σ : Type) where
  GetID : σ → String

export Session (GetID)

/-- The Go struct `Queue`: a `current` slot (nil when empty) and the `wait` slice. -/
structure Queue (σ : Type) where
  current : Option σ
  wait : List σ
  deriving DecidableEq, Repr

variable {σ : Type} [Session σ]

/-- The `for i := range queue.wait` loop of `GetSession`, from index 0 upward:
the first element whose id matches is returned with a nil error; when the
loop ends the function returns `nil, ErrSessionNotFound`. -/
def scanWait : List σ → String → Option σ × Option Error
  | [], _ => (none, some Error.ErrSessionNotFound)
  | s :: rest, id => if GetID s = id then (some s, none) else scanWait rest id

/-- Method `func (queue *Queue) GetSession(id string) (Session, error)`. -/
def Queue.GetSession (queue : Queue σ) (id : String) : Option σ × Option Error :=
  match queue.current with
  | some c => if GetID c = id then (some c, none) else scanWait queue.wait id
  | none => scanWait queue.wait id

/-- Method `func (queue *Queue) Enqueue(session Session) error`: the queue after
the call and the returned error. -/
def Queue.Enqueue {σ : Type} (queue : Queue σ) (session : σ) : Queue σ × Option Error :=
  ({ queue with wait := queue.wait ++ [session] }, none)

/-- Function `func NewQueue() *Queue`: the zero value of `Queue`. -/
def NewQueue {σ : Type} : Queue σ :=
  { current := none, wait := [] }

/-- The queue reached from `q` by calling `Enqueue` on each session of `ss` in order. -/
def enqueueAll {σ : Type} (q : Queue σ) : List σ → Queue σ
  | [] => q
  | s :: rest => enqueueAll (q.Enqueue s).1 rest

/-- The sessions held by a queue: the current one (if any) followed by the waiting ones. -/
def Queue.sessions {σ : Type} (q : Queue σ) : List σ :=
  q.current.toList ++ q.wait

/-- The ids of the sessions held by a queue, current first. -/
def Queue.ids (q : Queue σ) : List String :=
  q.sessions.map GetID

/-- A concrete session type: an id with caller and callee addresses. -/
structure Call where
  id : String
  caller : String
  callee : String
  deriving DecidableEq, Repr

instance : Session Call where
  GetID c := c.id

/-- A call with id `a1`. -/
def callA : Call := { id := "a1", caller := "alice", callee := "desk" }

/-- A call with id `b2`. -/
def callB : Call := { id := "b2", caller := "bob", callee := "desk" }

/-- A call with id `c3`. -/
def callC : Call := { id := "c3", caller := "carol", callee := "desk" }

/-- Another call that carries the id `a1` of `callA`, from a different caller. -/
def callA2 : Call := { id := "a1", caller := "mallory", callee := "desk" }

end media

namespace sip

/-- The constant `serverName`. -/
def serverName : String := "HAE-Proxy"

/-- Status code `sip.StatusOK` of the SIP library. -/
def StatusOK : Nat := 200

/-- Status code `sip.StatusUnauthorized` of the SIP library. -/
def StatusUnauthorized : Nat := 401

/-- Status code `sip.StatusCallTransactionDoesNotExists` of the SIP library
(the "Call/Transaction Does Not Exist" response). No handler refers to it. -/
def StatusCallTransactionDoesNotExists : Nat := 481

/-- The fields of `digest.Challenge` that the proxy sets. -/
structure Challenge where
  Realm : String
  Nonce : String
  Algorithm : String
  QOP : List String
  deriving DecidableEq, Repr

/-- The Go struct `RegisteredUA`. -/
structure RegisteredUA where
  Challenge : Challenge
  deriving DecidableEq, Repr

/-- The name of the Contact header in the SIP library: `ContactHeader.Name()`
returns this constant for every Contact header, whatever address it carries. -/
def contactHeaderName : String := "Contact"

/-- What the handlers can observe of a `*sip.Request`: its method, the value of
`req.Contact().Name()`, the dialog identifier (Call-ID), the caller and callee
addresses and the credential response (Authorization header), if any. The
handlers read only `contactName`. In the SIP library `Name()` is the name of
the header, so `contactName` is `contactHeaderName` for every request the
proxy receives; the registering identity is in `caller`. The handlers are
stated for an arbitrary value of the field. -/
structure Request where
  method : String
  contactName : String
  callID : String
  caller : String
  callee : String
  authorization : Option String
  deriving DecidableEq, Repr

/-- The value of a header appended by a handler: plain text, or the rendering
`Challenge.String()` of a challenge (kept symbolic). -/
inductive HeaderValue where
  | text (s : String)
  | challenge (c : Challenge)
  deriving DecidableEq, Repr

/-- A response built by `sip.NewResponseFromRequest(req, status, reason, nil)`
and extended with `AppendHeader`: the request it answers (whose headers the
library copies), the status line and the appended headers in order. -/
structure Response where
  request : Request
  StatusCode : Nat
  Reason : String
  appended : List (String × HeaderValue)
  deriving DecidableEq, Repr

/-- Library call `sip.NewResponseFromRequest(req, statusCode, reason, nil)`. -/
def NewResponseFromRequest (req : Request) (statusCode : Nat) (reason : String) : Response :=
  { request := req, StatusCode := statusCode, Reason := reason, appended := [] }

/-- Library call `res.AppendHeader(sip.NewHeader(name, value))`. -/
def Response.AppendHeader (res : Response) (name : String) (value : HeaderValue) : Response :=
  { res with appended := res.appended ++ [(name, value)] }

/-- The state of a `Proxy` that the handlers read or write: the `registrar` map
(a missing key is `none`, which is how the code reads it: `ua == nil`). -/
structure Proxy where
  registrar : String → Option RegisteredUA

/-- The registrar of `NewProxy`: the empty map. -/
def NewProxy : Proxy :=
  { registrar := fun _ => none }

/-- Map assignment `p.registrar[key] = ua`. -/
def Proxy.store (p : Proxy) (key : String) (ua : RegisteredUA) : Proxy :=
  { registrar := fun k => if k = key then some ua else p.registrar k }

/-- The server transaction as a handler uses it: `tx.Respond(res)` is given the
responses already passed to `Respond` on this transaction and the new one, and
returns an error or nil. -/
abbrev ServerTransaction := List Response → Response → Option String

/-- What a handler run leaves behind outside the proxy: the responses passed to
`tx.Respond`, in call order, and the errors handed to `p.error`, in call order. -/
structure Effects where
  sent : List Response
  reported : List String
  deriving DecidableEq, Repr

/-- The statements `err = tx.Respond(res)` and, when `err != nil`,
`p.error(fmt.Errorf(ctx + ": %w", err))`. -/
def Effects.respond (e : Effects) (tx : ServerTransaction) (res : Response) (ctx : String) : Effects :=
  match tx e.sent res with
  | none => { e with sent := e.sent ++ [res] }
  | some err => { sent := e.sent ++ [res], reported := e.reported ++ [ctx ++ ": " ++ err] }

/-- The handler passed to `p.server.OnRegister`. `nonce` is the value of
`uuid.New().String()` for this run. There is no `return` inside the
`if ua == nil` block, so control continues to the statements after it. -/
def OnRegister (tx : ServerTransaction) (nonce : String) (p : Proxy) (req : Request) :
    Proxy × Effects :=
  let start : Effects := { sent := [], reported := [] }
  let afterIf : Proxy × Effects :=
    match p.registrar req.contactName with
    | none =>
      let ua : RegisteredUA :=
        { Challenge := { Realm := serverName, Nonce := nonce, Algorithm := "MD5", QOP := ["auth"] } }
      let res := ((NewResponseFromRequest req StatusUnauthorized "Unauthorized").AppendHeader
        "WWW-Authenticate" (HeaderValue.challenge ua.Challenge)).AppendHeader
        "Server" (HeaderValue.text serverName)
      (p.store req.contactName ua, start.respond tx res "could not respond to REGISTER")
    | some _ => (p, start)
  let res := ((NewResponseFromRequest req StatusOK "OK").AppendHeader
    "Expires" (HeaderValue.text "3600")).AppendHeader "Server" (HeaderValue.text serverName)
  (afterIf.1, afterIf.2.respond tx res "could not respond to REGISTER")

/-- The handler passed to `p.server.OnInvite`. -/
def OnInvite (tx : ServerTransaction) (p : Proxy) (req : Request) : Proxy × Effects :=
  let start : Effects := { sent := [], reported := [] }
  (p, start.respond tx (NewResponseFromRequest req StatusOK "") "could not respond to REGISTER")

/-- The handler passed to `p.server.OnBye`. -/
def OnBye (tx : ServerTransaction) (p : Proxy) (req : Request) : Proxy × Effects :=
  let start : Effects := { sent := [], reported := [] }
  (p, start.respond tx (NewResponseFromRequest req StatusOK "") "could not respond to BYE")

/-- The handler passed to `p.server.OnCancel`. -/
def OnCancel (tx : ServerTransaction) (p : Proxy) (req : Request) : Proxy × Effects :=
  let start : Effects := { sent := [], reported := [] }
  (p, start.respond tx (NewResponseFromRequest req StatusOK "") "could not respond to CANCEL")

/-- The process state the queue claims about the proxy speak of: the call queue
created by `App.setup` and the proxy. `Proxy` has no field of type `Queue`
and the handler closures capture only the proxy, so a handler run maps a
process to a process with the same queue. -/
structure Process (σ : Type) where
  queue : media.Queue σ
  proxy : Proxy

/-- A run of the INVITE handler inside a process. -/
def Process.handleInvite {σ : Type} (tx : ServerTransaction) (w : Process σ) (req : Request) :
    Process σ × Effects :=
  ({ w with proxy := (OnInvite tx w.proxy req).1 }, (OnInvite tx w.proxy req).2)

/-- A run of the BYE handler inside a process. -/
def Process.handleBye {σ : Type} (tx : ServerTransaction) (w : Process σ) (req : Request) :
    Process σ × Effects :=
  ({ w with proxy := (OnBye tx w.proxy req).1 }, (OnBye tx w.proxy req).2)

/-- A run of the CANCEL handler inside a process. -/
def Process.handleCancel {σ : Type} (tx : ServerTransaction) (w : Process σ) (req : Request) :
    Process σ × Effects :=
  ({ w with proxy := (OnCancel tx w.proxy req).1 }, (OnCancel tx w.proxy req).2)

/-- A transaction on which every `Respond` succeeds. -/
def txOk : ServerTransaction := fun _ _ => none

/-- The 401 response the REGISTER handler builds for `req` with nonce `nonce`. -/
def unauthorizedResponse (req : Request) (nonce : String) : Response :=
  { request := req, StatusCode := 401, Reason := "Unauthorized",
    appended :=
      [("WWW-Authenticate", HeaderValue.challenge
          { Realm := "HAE-Proxy", Nonce := nonce, Algorithm := "MD5", QOP := ["auth"] }),
        ("Server", HeaderValue.text "HAE-Proxy")] }

/-- The 200 response the REGISTER handler builds for `req`. -/
def okRegisterResponse (req : Request) : Response :=
  { request := req, StatusCode := 200, Reason := "OK",
    appended := [("Expires", HeaderValue.text "3600"), ("Server", HeaderValue.text "HAE-Proxy")] }

/-- A REGISTER request from the identity `sip:alice@host` carrying the given
credential response. -/
def registerAlice (authorization : Option String) : Request :=
  { method := "REGISTER", contactName := contactHeaderName, callID := "reg-1",
    caller := "sip:alice@host", callee := "sip:alice@host", authorization := authorization }

/-- A REGISTER request from the identity `sip:bob@host` carrying the given
credential response. -/
def registerBob (authorization : Option String) : Request :=
  { method := "REGISTER", contactName := contactHeaderName, callID := "reg-2",
    caller := "sip:bob@host", callee := "sip:bob@host", authorization := authorization }

/-- The proxy after the handler has run on the first REGISTER of `sip:alice@host`
(no credential, nonce `n1`) at a new proxy. -/
def proxyAfterAlice : Proxy :=
  (OnRegister txOk "n1" NewProxy (registerAlice none)).1

/-- An INVITE request for the dialog `call-7`. -/
def inviteCall7 : Request :=
  { method := "INVITE", contactName := contactHeaderName, callID := "call-7",
    caller := "sip:alice@host", callee := "sip:desk@host", authorization := none }

/-- A BYE request for the dialog `call-9`. -/
def byeCall9 : Request :=
  { method := "BYE", contactName := contactHeaderName, callID := "call-9",
    caller := "sip:alice@host", callee := "sip:desk@host", authorization := none }

/-- A CANCEL request for the dialog `call-9`. -/
def cancelCall9 : Request :=
  { method := "CANCEL", contactName := contactHeaderName, callID := "call-9",
    caller := "sip:alice@host", callee := "sip:desk@host", authorization := none }

/-- The process right after start-up: an empty call queue and an empty registrar. -/
def freshProcess : Process media.Call :=
  { queue := media.NewQueue, proxy := NewProxy }

end sip

namespace sap

/-- Run-time panics of the Go program. -/
inductive Fault where
  | nilPointerDereference
  deriving DecidableEq, Repr

/-- Errors returned by `Header.Parse`; `e` is the wrapped reader error. -/
inductive ParseError where
  | couldNotReadFromUdpListener (e : String)
  | sapHeaderTooShort
  | couldNotReadAuthentication (e : String)
  | couldNotReadPayloadType (e : String)
  deriving DecidableEq, Repr

/-- The Go struct `Header`. Bytes are naturals below 256; `OriginatingSource`
is the four address bytes and `PayloadType` the bytes of the Go string. -/
structure Header where
  Version : Nat
  AddressType : Nat
  MessageType : Nat
  Encrypted : Bool
  Compressed : Bool
  AuthenticationLength : Nat
  MessageIdHash : String
  OriginatingSource : List Nat
  PayloadType : List Nat
  deriving DecidableEq, Repr

/-- The zero value of `Header`. -/
def Header.zero : Header :=
  { Version := 0, AddressType := 0, MessageType := 0, Encrypted := false, Compressed := false,
    AuthenticationLength := 0, MessageIdHash := "", OriginatingSource := [], PayloadType := [] }

/-- The two methods of `*bufio.Reader` that `Parse` calls, over reader states `β`.
`Read b n` is `b.Read(p)` with `len(p) = n`: the bytes written to the front of
`p`, the error and the reader afterwards. `ReadSlice b delim` likewise returns
the slice, the error and the reader afterwards. -/
structure Bufio (β : Type) where
  Read : β → Nat → List Nat × Option String × β
  ReadSlice : β → Nat → List Nat × Option String × β

/-- An `io.Reader` interface value by dynamic type: a `*bufio.Reader` (a pointer,
`none` when it is nil), a value of any other type, or the nil interface. -/
inductive Reader (β ρ : Type) where
  | bufio (br : Option β)
  | other (r : ρ)
  | nilInterface

/-- Go's `bufio.NewReader(rd)` for an argument of static type `*bufio.Reader`,
after the standard library: `NewReaderSize` first asserts `b, ok := rd.(*Reader)`,
which succeeds for a nil pointer too, and then evaluates `len(b.buf)`, which
dereferences `b`. For a non-nil `b` the result reads the stream of `b`. -/
def NewReader {β : Type} (b : Option β) : Except Fault (Option β) :=
  match b with
  | none => Except.error Fault.nilPointerDereference
  | some b => Except.ok (some b)

/-- Lower-case hexadecimal digit of a value below 16. -/
def hexDigit (n : Nat) : Char :=
  if n < 10 then Char.ofNat (48 + n) else Char.ofNat (87 + n)

/-- Go's `hex.EncodeToString`: two lower-case digits per byte. -/
def hexEncodeToString (bs : List Nat) : String :=
  String.mk (bs.flatMap fun b => [hexDigit (b / 16), hexDigit (b % 16)])

/-- Element `i` of the 8-byte buffer `buf` after `n` bytes were read into it:
bytes past the data keep the zero of `make`. -/
def bufAt (data : List Nat) (i : Nat) : Nat :=
  data.getD i 0

/-- The body of `Parse` from `buf := make([]byte, 8)` on, for a non-nil `br`. -/
def parseFrom {β : Type} (ops : Bufio β) (header : Header) (br : β) :
    Header × Option ParseError × β :=
  match ops.Read br 8 with
  | (_, some err, br1) => (header, some (ParseError.couldNotReadFromUdpListener err), br1)
  | (buf, none, br1) =>
    if buf.length < 8 then (header, some ParseError.sapHeaderTooShort, br1)
    else
      let header1 : Header :=
        { header with
          Version := bufAt buf 0 >>> 5
          AddressType := (bufAt buf 0 >>> 4) &&& 1
          MessageType := (bufAt buf 0 >>> 2) &&& 1
          Encrypted := ((bufAt buf 0 >>> 1) &&& 1) == 1
          Compressed := (bufAt buf 0 &&& 1) == 1
          AuthenticationLength := bufAt buf 1
          MessageIdHash := hexEncodeToString [bufAt buf 2, bufAt buf 3]
          OriginatingSource := [bufAt buf 4, bufAt buf 5, bufAt buf 6, bufAt buf 7] }
      match ops.Read br1 header1.AuthenticationLength with
      | (_, some err, br2) => (header1, some (ParseError.couldNotReadAuthentication err), br2)
      | (_, none, br2) =>
        match ops.ReadSlice br2 0 with
        | (_, some err, br3) => (header1, some (ParseError.couldNotReadPayloadType err), br3)
        | (pt, none, br3) => ({ header1 with PayloadType := pt.take (pt.length - 1) }, none, br3)

/-- Method `func (header *Header) Parse(r io.Reader) error`: a panic, or the
header after the call, the returned error and the reader afterwards.
When the assertion `r.(*bufio.Reader)` fails, `br` is the nil pointer and the
code calls `bufio.NewReader(br)`; `r` is not used again. A method call on a
nil `*bufio.Reader` dereferences it. -/
def Header.Parse {β ρ : Type} (ops : Bufio β) (header : Header) (r : Reader β ρ) :
    Except Fault (Header × Option ParseError × β) :=
  let br : Except Fault (Option β) :=
    match r with
    | Reader.bufio br => Except.ok br
    | Reader.other _ => NewReader none
    | Reader.nilInterface => NewReader none
  match br with
  | Except.error f => Except.error f
  | Except.ok none => Except.error Fault.nilPointerDereference
  | Except.ok (some br) => Except.ok (parseFrom ops header br)

/-- The constant `defaultBufSize` of Go's `bufio`: the buffer of `bufio.NewReader`. -/
def defaultBufSize : Nat := 4096

/-- A `bufio.Reader` newly made by `bufio.NewReader` over an in-memory byte
stream, as `Parse` drives it: a read of 8 bytes, a read of at most 255 bytes,
then one `ReadSlice`. The state is the bytes not yet returned. The first read
fills the buffer with up to `defaultBufSize` bytes of the stream, so in this
call sequence each read finds as many unread bytes buffered as it asks for,
up to the end of the stream. -/
structure MemReader where
  unread : List Nat
  deriving DecidableEq, Repr

/-- Go's `(*bufio.Reader).Read` on a `MemReader`, for the reads of `Parse`: a
zero-length read returns `0, nil`; at the end of the stream the read returns
`0, io.EOF`; otherwise it copies as many unread bytes as fit. -/
def MemReader.Read (b : MemReader) (n : Nat) : List Nat × Option String × MemReader :=
  if n = 0 then ([], none, b)
  else if b.unread = [] then ([], some "EOF", b)
  else (b.unread.take n, none, { unread := b.unread.drop n })

/-- The bytes of `bs` up to and including the first `delim`, if there is one. -/
def upTo (delim : Nat) : List Nat → Option (List Nat)
  | [] => none
  | b :: rest => if b = delim then some [b] else (upTo delim rest).map (b :: ·)

/-- Go's `(*bufio.Reader).ReadSlice` on a `MemReader`: the bytes through the
first delimiter when it lies within the next `defaultBufSize` bytes; otherwise
the buffer fills up without a delimiter and the call returns its
`defaultBufSize` bytes with `bufio.ErrBufferFull`, or, when fewer bytes are
left, everything left with `io.EOF`. -/
def MemReader.ReadSlice (b : MemReader) (delim : Nat) : List Nat × Option String × MemReader :=
  match upTo delim (b.unread.take defaultBufSize) with
  | some line => (line, none, { unread := b.unread.drop line.length })
  | none =>
    if defaultBufSize ≤ b.unread.length then
      (b.unread.take defaultBufSize, some "bufio: buffer full",
        { unread := b.unread.drop defaultBufSize })
    else (b.unread, some "EOF", { unread := [] })

/-- The `bufio.Reader` operations on `MemReader`. -/
def memBufio : Bufio MemReader :=
  { Read := MemReader.Read, ReadSlice := MemReader.ReadSlice }

/-- A SAP packet: flags byte `0x20` (version 1), no authentication data,
message id hash `0xbeef`, origin `192.168.88.248`, payload type
`application/sdp` followed by NUL, then the first payload bytes `v=0`. -/
def samplePacket : List Nat :=
  [0x20, 0, 0xbe, 0xef, 192, 168, 88, 248,
   97, 112, 112, 108, 105, 99, 97, 116, 105, 111, 110, 47, 115, 100, 112, 0,
   118, 61, 48]

/-- The header encoded by `samplePacket`. -/
def sampleHeader : Header :=
  { Version := 1, AddressType := 0, MessageType := 0, Encrypted := false, Compressed := false,
    AuthenticationLength := 0, MessageIdHash := "beef", OriginatingSource := [192, 168, 88, 248],
    PayloadType := [97, 112, 112, 108, 105, 99, 97, 116, 105, 111, 110, 47, 115, 100, 112] }

end sap

/-! ## Theorems: the call queue -/

namespace media

variable {σ : Type} [Session σ]

theorem scanWait_no_match (l : List σ) (id : String) (h : ∀ s ∈ l, GetID s ≠ id) :
    scanWait l id = (none, some Error.ErrSessionNotFound) := by
  induction l with
  | nil => rfl
  | cons a rest ih =>
    have ha : GetID a ≠ id := h a (List.mem_cons_self a rest)
    have hrest : ∀ s ∈ rest, GetID s ≠ id := fun s hs => h s (List.mem_cons_of_mem a hs)
    simp [scanWait, ha, ih hrest]

theorem scanWait_first_match (l : List σ) (id : String) (i : Nat) (hi : i < l.length)
    (hid : GetID (l.get ⟨i, hi⟩) = id)
    (hmin : ∀ (j : Nat) (hj : j < l.length), j < i → GetID (l.get ⟨j, hj⟩) ≠ id) :
    scanWait l id = (some (l.get ⟨i, hi⟩), none) := by
  induction l generalizing i with
  | nil => exact absurd hi (Nat.not_lt_zero i)
  | cons a rest ih =>
    cases i with
    | zero =>
      have ha : GetID a = id := hid
      simp [scanWait, ha]
    | succ k =>
      have ha : GetID a ≠ id := hmin 0 (Nat.succ_pos _) (Nat.succ_pos k)
      have hk : k < rest.length := Nat.lt_of_succ_lt_succ hi
      have step := ih k hk hid (fun j hj hjk => hmin (j + 1) (Nat.succ_lt_succ hj) (Nat.succ_lt_succ hjk))
      simp only [scanWait, ha, if_false]
      exact step

theorem scanWait_error_iff (l : List σ) (id : String) :
    (scanWait l id).2 = some Error.ErrSessionNotFound ↔ ∀ s ∈ l, GetID s ≠ id := by
  induction l with
  | nil => simp [scanWait]
  | cons a rest ih =>
    by_cases ha : GetID a = id
    · simp [scanWait, ha]
    · simp [scanWait, ha, ih]

theorem enqueueAll_wait {σ : Type} (ss : List σ) (q : Queue σ) :
    (enqueueAll q ss).wait = q.wait ++ ss ∧ (enqueueAll q ss).current = q.current := by
  induction ss generalizing q with
  | nil => simp [enqueueAll]
  | cons a rest ih =>
    have step := ih (q.Enqueue a).1
    simp only [enqueueAll]
    refine ⟨?_, ?_⟩
    · rw [step.1]; simp [Queue.Enqueue]
    · rw [step.2]; simp [Queue.Enqueue]

/-- C1. `GetSession` looks in the current slot first and then scans the waiting
sequence in order: a current session with the id is returned with a nil error;
otherwise the waiting session at the smallest index with the id is returned
with a nil error; otherwise the result is `nil, ErrSessionNotFound`. It fails
with `ErrSessionNotFound` exactly when no current or waiting session has the id. -/
theorem GetSession_current_then_waiting (q : Queue σ) (id : String) :
    (∀ c, q.current = some c → GetID c = id → q.GetSession id = (some c, none)) ∧
    ((∀ c, q.current = some c → GetID c ≠ id) →
      ∀ (i : Nat) (hi : i < q.wait.length), GetID (q.wait.get ⟨i, hi⟩) = id →
        (∀ (j : Nat) (hj : j < q.wait.length), j < i → GetID (q.wait.get ⟨j, hj⟩) ≠ id) →
        q.GetSession id = (some (q.wait.get ⟨i, hi⟩), none)) ∧
    ((∀ c, q.current = some c → GetID c ≠ id) → (∀ s ∈ q.wait, GetID s ≠ id) →
      q.GetSession id = (none, some Error.ErrSessionNotFound)) ∧
    ((q.GetSession id).2 = some Error.ErrSessionNotFound ↔
      (∀ c, q.current = some c → GetID c ≠ id) ∧ ∀ s ∈ q.wait, GetID s ≠ id) := by
  obtain ⟨cur, wait⟩ := q
  cases cur with
  | none =>
    refine ⟨?_, ?_, ?_, ?_⟩
    · intro c hc; cases hc
    · intro _ i hi hid hmin
      exact scanWait_first_match wait id i hi hid hmin
    · intro _ hw
      exact scanWait_no_match wait id hw
    · simp [Queue.GetSession, scanWait_error_iff]
  | some c0 =>
    refine ⟨?_, ?_, ?_, ?_⟩
    · intro c hc hid
      cases hc
      simp [Queue.GetSession, hid]
    · intro hcur i hi hid hmin
      have hc0 : GetID c0 ≠ id := hcur c0 rfl
      simp only [Queue.GetSession, hc0, if_false]
      exact scanWait_first_match wait id i hi hid hmin
    · intro hcur hw
      have hc0 : GetID c0 ≠ id := hcur c0 rfl
      simp only [Queue.GetSession, hc0, if_false]
      exact scanWait_no_match wait id hw
    · by_cases hc0 : GetID c0 = id
      · simp [Queue.GetSession, hc0]
      · simp [Queue.GetSession, hc0, scanWait_error_iff]

/-- Instances of C1 on the queue with `callA` current and `callB`, `callC`
waiting: the current session, a waiting session, and an id held by nobody. -/
theorem GetSession_current_then_waiting_witness :
    (Queue.mk (some callA) [callB, callC]).GetSession "a1" = (some callA, none) ∧
    (Queue.mk (some callA) [callB, callC]).GetSession "c3" = (some callC, none) ∧
    (Queue.mk (some callA) [callB, callC]).GetSession "zz" =
      (none, some Error.ErrSessionNotFound) :=
  ⟨(GetSession_current_then_waiting (Queue.mk (some callA) [callB, callC]) "a1").1
      callA rfl (by decide),
    (GetSession_current_then_waiting (Queue.mk (some callA) [callB, callC]) "c3").2.1
      (by decide) 1 (by decide) (by decide) (by decide),
    (GetSession_current_then_waiting (Queue.mk (some callA) [callB, callC]) "zz").2.2.1
      (by decide) (by decide)⟩

theorem scanWait_append_same (l : List σ) (s : σ)
    (h : ∀ t ∈ l, GetID t = GetID s → t = s) :
    scanWait (l ++ [s]) (GetID s) = (some s, none) := by
  induction l with
  | nil => simp [scanWait]
  | cons a rest ih =>
    have hrest : ∀ t ∈ rest, GetID t = GetID s → t = s :=
      fun t ht => h t (List.mem_cons_of_mem a ht)
    by_cases ha : GetID a = GetID s
    · have hs : a = s := h a (List.mem_cons_self a rest) ha
      simp [scanWait, hs]
    · simp only [List.cons_append, scanWait, ha, if_false]
      exact ih hrest

/-- C2, refuted as stated. On the queue that already waits on `callA`, enqueuing
`callA2` (same id `a1`) and then fetching `callA2.GetID()` returns `callA`, not
the session that was enqueued. -/
theorem duplicate_id_roundtrip_returns_other :
    ((NewQueue.Enqueue callA).1.Enqueue callA2).1.GetSession (GetID callA2) = (some callA, none) ∧
    ((NewQueue.Enqueue callA).1.Enqueue callA2).1.GetSession (GetID callA2) ≠
      (some callA2, none) := by
  decide

/-- C2, amended. When every session already in the queue that carries the id of
`s` is `s` itself (in particular when the id is new to the queue), `Enqueue s`
followed by `GetSession (s.GetID())` returns `s` with a nil error. -/
theorem enqueue_then_GetSession (q : Queue σ) (s : σ)
    (h : ∀ t ∈ q.sessions, GetID t = GetID s → t = s) :
    (q.Enqueue s).1.GetSession (GetID s) = (some s, none) := by
  obtain ⟨cur, wait⟩ := q
  have hw : ∀ t ∈ wait, GetID t = GetID s → t = s :=
    fun t ht => h t (by simp [Queue.sessions, ht])
  cases cur with
  | none =>
    simp only [Queue.Enqueue, Queue.GetSession]
    exact scanWait_append_same wait s hw
  | some c =>
    by_cases hc : GetID c = GetID s
    · have hcs : c = s := h c (by simp [Queue.sessions]) hc
      simp [Queue.Enqueue, Queue.GetSession, hcs]
    · simp only [Queue.Enqueue, Queue.GetSession, hc, if_false]
      exact scanWait_append_same wait s hw

/-- Instance of the amended C2: `callC` enqueued behind `callA` (current) and
`callB` (waiting) is found again. -/
theorem enqueue_then_GetSession_witness :
    (∀ t ∈ (Queue.mk (some callA) [callB]).sessions, GetID t = GetID callC → t = callC) ∧
    ((Queue.mk (some callA) [callB]).Enqueue callC).1.GetSession (GetID callC) =
      (some callC, none) :=
  ⟨by decide, enqueue_then_GetSession (Queue.mk (some callA) [callB]) callC (by decide)⟩

/-- C3. `Enqueue` returns a nil error; the new waiting sequence is the old one
followed by the session: one element longer, every earlier index keeps its
element, the new last element is the session; the current slot is unchanged. -/
theorem Enqueue_appends {σ : Type} (q : Queue σ) (s : σ) :
    (q.Enqueue s).2 = none ∧
    (q.Enqueue s).1.wait = q.wait ++ [s] ∧
    (q.Enqueue s).1.wait.length = q.wait.length + 1 ∧
    (∀ (i : Nat) (hi : i < q.wait.length),
      (q.Enqueue s).1.wait.get? i = some (q.wait.get ⟨i, hi⟩)) ∧
    (q.Enqueue s).1.wait.get? q.wait.length = some s ∧
    (q.Enqueue s).1.current = q.current := by
  refine ⟨rfl, rfl, by simp [Queue.Enqueue], ?_, by simp [Queue.Enqueue], rfl⟩
  intro i hi
  simp [Queue.Enqueue, List.getElem?_append_left hi, List.getElem?_eq_getElem hi]

theorem enqueueAll_NewQueue {σ : Type} (ss : List σ) :
    enqueueAll NewQueue ss = { current := none, wait := ss } := by
  have h := enqueueAll_wait ss (NewQueue : Queue σ)
  cases hq : enqueueAll NewQueue ss with
  | mk cur wait =>
    rw [hq] at h
    simp [NewQueue] at h
    simp [h.1, h.2]

theorem scanWait_mem_of_nodup (l : List σ) (s : σ) (hnd : (l.map GetID).Nodup) (hs : s ∈ l) :
    scanWait l (GetID s) = (some s, none) := by
  induction l with
  | nil => cases hs
  | cons a rest ih =>
    rw [List.map_cons, List.nodup_cons] at hnd
    rcases List.mem_cons.mp hs with hsa | hsr
    · subst hsa
      simp [scanWait]
    · have ha : GetID a ≠ GetID s := by
        intro heq
        exact hnd.1 (heq ▸ List.mem_map_of_mem GetID hsr)
      simp only [scanWait, ha, if_false]
      exact ih hnd.2 hsr

/-- C4, refuted as stated. Starting from `NewQueue()`, `Enqueue(callA)` and then
`Enqueue(callA2)` with the same id `a1` both return a nil error; the second
call changes the queue, and the id `a1` then occurs twice. -/
theorem enqueue_accepts_duplicate_id :
    ((NewQueue.Enqueue callA).1.Enqueue callA2).2 = none ∧
    ((NewQueue.Enqueue callA).1.Enqueue callA2).1 ≠ (NewQueue.Enqueue callA).1 ∧
    ((NewQueue.Enqueue callA).1.Enqueue callA2).1 = enqueueAll NewQueue [callA, callA2] ∧
    (enqueueAll NewQueue [callA, callA2]).ids = ["a1", "a1"] ∧
    ¬ (enqueueAll NewQueue [callA, callA2]).ids.Nodup := by
  decide

/-- C4, amended. The queue does not enforce id uniqueness. The state reached from
`NewQueue()` by enqueuing `ss` holds exactly `ss` as its waiting sequence with an
empty current slot, so its ids are pairwise distinct exactly when those of `ss`
are; a further `Enqueue s` is never rejected, whether or not the id of `s` is
present: it returns a nil error and appends `s`. -/
theorem reachable_ids_nodup_iff (ss : List σ) (s : σ) :
    ((enqueueAll NewQueue ss).ids.Nodup ↔ (ss.map GetID).Nodup) ∧
    ((enqueueAll NewQueue ss).Enqueue s).2 = none ∧
    ((enqueueAll NewQueue ss).Enqueue s).1.wait = ss ++ [s] ∧
    ((enqueueAll NewQueue ss).Enqueue s).1.current = none := by
  rw [enqueueAll_NewQueue]
  simp [Queue.ids, Queue.sessions, Queue.Enqueue]

/-- C5. Enqueuing sessions with pairwise distinct ids onto `NewQueue()` leaves
the waiting sequence equal to the list in insertion order (its front is the
first session enqueued) with an empty current slot, and `GetSession` on the id
of each enqueued session returns that session with a nil error. -/
theorem fifo_on_fresh_queue (ss : List σ) (h : (ss.map GetID).Nodup) :
    (enqueueAll NewQueue ss).wait = ss ∧
    (enqueueAll NewQueue ss).current = none ∧
    (enqueueAll NewQueue ss).wait.head? = ss.head? ∧
    ∀ s ∈ ss, (enqueueAll NewQueue ss).GetSession (GetID s) = (some s, none) := by
  rw [enqueueAll_NewQueue]
  refine ⟨rfl, rfl, rfl, ?_⟩
  intro s hs
  simp only [Queue.GetSession]
  exact scanWait_mem_of_nodup ss s h hs

/-- Instance of C5 on the three calls `callA`, `callB`, `callC`. -/
theorem fifo_on_fresh_queue_witness :
    ([callA, callB, callC].map GetID).Nodup ∧
    (enqueueAll NewQueue [callA, callB, callC]).wait = [callA, callB, callC] ∧
    (enqueueAll NewQueue [callA, callB, callC]).current = none ∧
    (enqueueAll NewQueue [callA, callB, callC]).wait.head? = [callA, callB, callC].head? ∧
    ∀ s ∈ [callA, callB, callC],
      (enqueueAll NewQueue [callA, callB, callC]).GetSession (GetID s) = (some s, none) :=
  ⟨by decide, fifo_on_fresh_queue [callA, callB, callC] (by decide)⟩

end media

/-! ## Theorems: the inbound proxy handlers -/

namespace sip

theorem Effects.respond_sent (e : Effects) (tx : ServerTransaction) (res : Response)
    (ctx : String) : (e.respond tx res ctx).sent = e.sent ++ [res] := by
  unfold Effects.respond
  split <;> rfl

/-- C6, evaluated on the code. For every registrar state and every REGISTER
request whose contact name has no entry, the handler stores the challenge record
for the contact (realm `HAE-Proxy`, the fresh nonce, `MD5`, qop `auth`) and
passes two responses to `tx.Respond`: the 401 "Unauthorized" carrying the
challenge and then a 200 "OK" with Expires 3600. -/
theorem OnRegister_unknown_identity_sends_401_then_200 (tx : ServerTransaction)
    (nonce : String) (p : Proxy) (req : Request) (h : p.registrar req.contactName = none) :
    (OnRegister tx nonce p req).2.sent =
      [unauthorizedResponse req nonce, okRegisterResponse req] ∧
    (OnRegister tx nonce p req).2.sent.map Response.StatusCode = [401, 200] ∧
    (OnRegister tx nonce p req).1.registrar req.contactName =
      some { Challenge :=
        { Realm := "HAE-Proxy", Nonce := nonce, Algorithm := "MD5", QOP := ["auth"] } } := by
  simp only [OnRegister, h, Effects.respond_sent]
  simp [Proxy.store, unauthorizedResponse, okRegisterResponse, NewResponseFromRequest,
    Response.AppendHeader, StatusUnauthorized, StatusOK, serverName]

/-- Instance of C6 on the code: the first REGISTER of `alice` at a new proxy. -/
theorem OnRegister_unknown_identity_sends_401_then_200_witness :
    NewProxy.registrar (registerAlice none).contactName = none ∧
    (OnRegister txOk "n1" NewProxy (registerAlice none)).2.sent =
      [unauthorizedResponse (registerAlice none) "n1", okRegisterResponse (registerAlice none)] ∧
    (OnRegister txOk "n1" NewProxy (registerAlice none)).2.sent.map Response.StatusCode =
      [401, 200] ∧
    (OnRegister txOk "n1" NewProxy (registerAlice none)).1.registrar
        (registerAlice none).contactName =
      some { Challenge :=
        { Realm := "HAE-Proxy", Nonce := "n1", Algorithm := "MD5", QOP := ["auth"] } } :=
  ⟨rfl, OnRegister_unknown_identity_sends_401_then_200 txOk "n1" NewProxy (registerAlice none) rfl⟩

theorem OnRegister_after_register (tx tx2 : ServerTransaction) (nonce nonce2 : String)
    (p : Proxy) (req0 req : Request) (hkey : req.contactName = req0.contactName) :
    (OnRegister tx2 nonce2 (OnRegister tx nonce p req0).1 req).2.sent = [okRegisterResponse req] ∧
    (OnRegister tx2 nonce2 (OnRegister tx nonce p req0).1 req).1 =
      (OnRegister tx nonce p req0).1 := by
  have hrec : ∃ ua, (OnRegister tx nonce p req0).1.registrar req.contactName = some ua := by
    rw [hkey]
    cases h0 : p.registrar req0.contactName with
    | none => simp [OnRegister, h0, Proxy.store]
    | some ua => simp [OnRegister, h0]
  obtain ⟨ua, hua⟩ := hrec
  generalize (OnRegister tx nonce p req0).1 = p1 at hua ⊢
  simp only [OnRegister, hua, Effects.respond_sent]
  simp [okRegisterResponse, NewResponseFromRequest, Response.AppendHeader, StatusOK, serverName]

/-- C7, refuted as stated. After the first REGISTER of `sip:alice@host` was
challenged with nonce `n1`, a REGISTER from the same identity without a
credential response, and one answering the foreign nonce `n0`, each get a
single 200 "OK" with Expires 3600; no 401 is sent and the stored challenge
keeps the nonce `n1`. -/
theorem OnRegister_accepts_without_valid_credential :
    (OnRegister txOk "n2" proxyAfterAlice (registerAlice none)).2.sent =
      [okRegisterResponse (registerAlice none)] ∧
    (OnRegister txOk "n2" proxyAfterAlice (registerAlice (some "nonce=n0"))).2.sent =
      [okRegisterResponse (registerAlice (some "nonce=n0"))] ∧
    ((OnRegister txOk "n2" proxyAfterAlice (registerAlice none)).1.registrar
        (registerAlice none).contactName).map (fun ua => ua.Challenge.Nonce) = some "n1" := by
  decide

/-- C7, amended. For every registrar state and every REGISTER request for which
the registrar holds a record under the key the handler looks up,
`req.Contact().Name()`, the handler reads no credential: whatever credential
response the request carries, it passes exactly one response to `tx.Respond`,
the 200 "OK" with Expires 3600 and the Server header; it issues no challenge
and leaves the registrar as it was. -/
theorem OnRegister_record_on_file (tx : ServerTransaction) (nonce : String) (p : Proxy)
    (req : Request) (ua : RegisteredUA) (h : p.registrar req.contactName = some ua) :
    (OnRegister tx nonce p req).2.sent = [okRegisterResponse req] ∧
    (OnRegister tx nonce p req).1 = p := by
  simp only [OnRegister, h, Effects.respond_sent]
  simp [okRegisterResponse, NewResponseFromRequest, Response.AppendHeader, StatusOK, serverName]

/-- Instance of the amended C7: after the first REGISTER of `sip:alice@host` the
record is on file under the key of every request, and a second REGISTER without
a credential gets the single 200. -/
theorem OnRegister_record_on_file_witness :
    proxyAfterAlice.registrar (registerAlice none).contactName =
      some { Challenge :=
        { Realm := "HAE-Proxy", Nonce := "n1", Algorithm := "MD5", QOP := ["auth"] } } ∧
    (OnRegister txOk "n2" proxyAfterAlice (registerAlice none)).2.sent =
      [okRegisterResponse (registerAlice none)] ∧
    (OnRegister txOk "n2" proxyAfterAlice (registerAlice none)).1 = proxyAfterAlice :=
  ⟨by decide, OnRegister_record_on_file txOk "n2" proxyAfterAlice (registerAlice none)
    { Challenge := { Realm := "HAE-Proxy", Nonce := "n1", Algorithm := "MD5", QOP := ["auth"] } }
    (by decide)⟩

/-- C8, refuted as stated. In the process right after start-up no session was
ever admitted (`GetSession` on the dialog id fails), yet BYE and CANCEL for the
dialog `call-9` are each answered with status 200, not with 481
"Call/Transaction Does Not Exist". -/
theorem bye_for_unknown_call_gets_200 :
    freshProcess.queue.GetSession byeCall9.callID = (none, some media.Error.ErrSessionNotFound) ∧
    (freshProcess.handleBye txOk byeCall9).2.sent.map Response.StatusCode = [200] ∧
    (freshProcess.handleCancel txOk cancelCall9).2.sent.map Response.StatusCode = [200] ∧
    (freshProcess.handleBye txOk byeCall9).2.sent.map Response.StatusCode ≠
      [StatusCallTransactionDoesNotExists] ∧
    (freshProcess.handleCancel txOk cancelCall9).2.sent.map Response.StatusCode ≠
      [StatusCallTransactionDoesNotExists] := by
  decide

/-- C8, amended. For every BYE and every CANCEL request, in every process state
(whether or not the dialog identifier matches an admitted session), the handler
passes exactly one response to `tx.Respond`, a 200 with an empty reason, and
leaves the call queue and the registrar as they were. -/
theorem bye_cancel_always_200 {σ : Type} (tx : ServerTransaction) (w : Process σ)
    (req : Request) :
    (w.handleBye tx req).2.sent = [NewResponseFromRequest req 200 ""] ∧
    (w.handleBye tx req).1 = w ∧
    (w.handleCancel tx req).2.sent = [NewResponseFromRequest req 200 ""] ∧
    (w.handleCancel tx req).1 = w := by
  simp [Process.handleBye, Process.handleCancel, OnBye, OnCancel, Effects.respond_sent, StatusOK]

/-- C9, refuted as stated. The INVITE for dialog `call-7` is answered 200 in the
process right after start-up, and afterwards the waiting sequence still has
length 0 and `GetSession` on the dialog id fails with `ErrSessionNotFound`. -/
theorem invite_accepted_without_enqueue :
    (freshProcess.handleInvite txOk inviteCall7).2.sent.map Response.StatusCode = [200] ∧
    freshProcess.queue.wait.length = 0 ∧
    (freshProcess.handleInvite txOk inviteCall7).1.queue.wait.length = 0 ∧
    (freshProcess.handleInvite txOk inviteCall7).1.queue.GetSession inviteCall7.callID =
      (none, some media.Error.ErrSessionNotFound) := by
  decide

/-- C9, amended. For every INVITE request and every process state the handler
passes exactly one response to `tx.Respond`, a 200 with an empty reason; it
builds no session and calls no queue operation: the call queue (and the
registrar) are the same after the handler as before. -/
theorem invite_always_200_queue_unchanged {σ : Type} (tx : ServerTransaction) (w : Process σ)
    (req : Request) :
    (w.handleInvite tx req).2.sent = [NewResponseFromRequest req 200 ""] ∧
    (w.handleInvite tx req).1.queue = w.queue ∧
    (w.handleInvite tx req).1 = w := by
  simp [Process.handleInvite, OnInvite, Effects.respond_sent, StatusOK]

end sip

/-! ## Theorems: the SAP header parser -/

namespace sap

theorem upTo_delim_after (delim : Nat) (pt rest : List Nat) (h : ∀ b ∈ pt, b ≠ delim) :
    upTo delim (pt ++ delim :: rest) = some (pt ++ [delim]) := by
  induction pt with
  | nil => simp [upTo]
  | cons a tl ih =>
    have ha : a ≠ delim := h a (List.mem_cons_self a tl)
    have htl : ∀ b ∈ tl, b ≠ delim := fun b hb => h b (List.mem_cons_of_mem a hb)
    simp [upTo, ha, ih htl]

theorem MemReader_Read_auth (auth tail : List Nat) (htail : tail ≠ []) :
    MemReader.Read ⟨auth ++ tail⟩ auth.length = (auth, none, ⟨tail⟩) := by
  unfold MemReader.Read
  by_cases hz : auth.length = 0
  · have hnil : auth = [] := List.length_eq_zero.mp hz
    subst hnil
    simp
  · have hne : auth ++ tail ≠ [] := by simp [htail]
    simp [hz, hne]

theorem MemReader_ReadSlice_line (delim : Nat) (pt rest : List Nat)
    (h : ∀ b ∈ pt, b ≠ delim) (hlen : pt.length < defaultBufSize) :
    MemReader.ReadSlice ⟨pt ++ delim :: rest⟩ delim = (pt ++ [delim], none, ⟨rest⟩) := by
  obtain ⟨k, hk⟩ : ∃ k, defaultBufSize - pt.length = k + 1 :=
    ⟨defaultBufSize - pt.length - 1, by omega⟩
  have htake : (pt ++ delim :: rest).take defaultBufSize = pt ++ delim :: rest.take k := by
    rw [List.take_append_eq_append_take, List.take_of_length_le (Nat.le_of_lt hlen), hk,
      List.take_succ_cons]
  simp [MemReader.ReadSlice, htake, upTo_delim_after delim pt (rest.take k) h]

/-- On a newly made `bufio.Reader` over eight header bytes, `b1` authentication
bytes (`b1` a byte), a payload type without NUL that fits the buffer together
with its NUL, the NUL and any further bytes, `Parse` returns a nil error with
the fields decoded from those bytes and leaves the reader right after the NUL. -/
theorem Parse_bufio_decodes (ρ : Type) (header : Header) (b0 b1 b2 b3 b4 b5 b6 b7 : Nat)
    (auth pt rest : List Nat) (hauth : auth.length = b1) (_hb1 : b1 < 256)
    (hpt : ∀ b ∈ pt, b ≠ 0) (hlen : pt.length < defaultBufSize) :
    Header.Parse memBufio header (Reader.bufio (ρ := ρ)
        (some ⟨[b0, b1, b2, b3, b4, b5, b6, b7] ++ (auth ++ (pt ++ 0 :: rest))⟩)) =
      Except.ok
        ({ Version := b0 >>> 5
           AddressType := (b0 >>> 4) &&& 1
           MessageType := (b0 >>> 2) &&& 1
           Encrypted := ((b0 >>> 1) &&& 1) == 1
           Compressed := (b0 &&& 1) == 1
           AuthenticationLength := b1
           MessageIdHash := hexEncodeToString [b2, b3]
           OriginatingSource := [b4, b5, b6, b7]
           PayloadType := pt }, none, ⟨rest⟩) := by
  subst hauth
  have hread : MemReader.Read ⟨[b0, auth.length, b2, b3, b4, b5, b6, b7] ++
      (auth ++ (pt ++ 0 :: rest))⟩ 8 =
      ([b0, auth.length, b2, b3, b4, b5, b6, b7], none, ⟨auth ++ (pt ++ 0 :: rest)⟩) := by
    simp [MemReader.Read]
  have hauthRead := MemReader_Read_auth auth (pt ++ 0 :: rest) (by simp)
  have hslice := MemReader_ReadSlice_line 0 pt rest hpt hlen
  simp only [Header.Parse, parseFrom, memBufio, hread, bufAt, List.getD_cons_zero,
    List.getD_cons_succ, List.length_cons, List.length_nil, hauthRead, hslice]
  simp

/-- C10, evaluated on the code. A reader whose dynamic type is not
`*bufio.Reader` (the nil interface included) is never wrapped and never read:
for every such reader, all `bufio` operations and every header, `Parse` ends
in a nil pointer dereference. On the packet `samplePacket` this differs from
`Parse` on a `bufio.Reader` over the same bytes, which returns a nil error with
the header fields decoded and the reader left at the payload. -/
theorem Parse_unwrapped_reader_panics (β ρ : Type) (ops : Bufio β) (header : Header) (r : ρ) :
    Header.Parse ops header (Reader.other r) = Except.error Fault.nilPointerDereference ∧
    Header.Parse ops header (Reader.nilInterface : Reader β ρ) =
      Except.error Fault.nilPointerDereference ∧
    Header.Parse memBufio Header.zero (Reader.other (β := MemReader) samplePacket) =
      Except.error Fault.nilPointerDereference ∧
    Header.Parse memBufio Header.zero (Reader.bufio (ρ := List Nat) (some ⟨samplePacket⟩)) =
      Except.ok (sampleHeader, none, ⟨[118, 61, 48]⟩) :=
  ⟨rfl, rfl, rfl, rfl⟩

end sap

end Megaphone
